import Mathlib

/-!
Verification of the IMDB doc2vec sentiment-classification notebook
(`doc2vec_sentiment_classifier.ipynb`).

Python strings are embedded as `List Char` (the decoded code points).
The notebook's own functions (`tokenize_text`, `TxtCorpus.__iter__`,
`load_from_model`, `infer_from_model`, `train_lr_evaluate`, the
accuracies loop) are translated definition by definition; library
behaviour (gensim, sklearn, tensorflow-datasets) enters only through
abstract type parameters and function-valued fields.
-/

namespace IMDB

/-- The set of characters Python treats as whitespace for `str.split()`,
`str.strip()` (Py_UNICODE_ISSPACE): ASCII 9-13, 28-31, space, NEL,
NBSP, and the Unicode space separators. -/
def pySpace (c : Char) : Bool :=
  decide ((9 ≤ c.toNat ∧ c.toNat ≤ 13) ∨ c.toNat = 32 ∨
    (28 ≤ c.toNat ∧ c.toNat ≤ 31) ∨ c.toNat = 0x85 ∨ c.toNat = 0xa0 ∨
    c.toNat = 0x1680 ∨ (0x2000 ≤ c.toNat ∧ c.toNat ≤ 0x200a) ∨
    c.toNat = 0x2028 ∨ c.toNat = 0x2029 ∨ c.toNat = 0x202f ∨
    c.toNat = 0x205f ∨ c.toNat = 0x3000)

/-- Helper for the lazy regex `<.*?>`: given the characters after a `<`,
returns the remainder after the first `>` provided no newline occurs
before it ( `.` does not match a newline), and `none` otherwise. -/
def findTag : List Char → Option (List Char)
  | [] => none
  | c :: rest =>
    if c = '>' then some rest
    else if c = '\n' then none
    else findTag rest

theorem findTag_length_le : ∀ (l r : List Char), findTag l = some r → r.length ≤ l.length := by
  intro l
  induction l with
  | nil => intro r h; simp [findTag] at h
  | cons c rest ih =>
    intro r hr
    by_cases hc : c = '>'
    · simp [findTag, hc] at hr
      subst hr; simp
    · by_cases hn : c = '\n'
      · simp [findTag, hc, hn] at hr
      · simp [findTag, hc, hn] at hr
        exact Nat.le_succ_of_le (ih r hr)

/-- Embeds `re.sub(cleanr, newline, text)` for the pattern `<.*?>`:
replace every non-overlapping, leftmost, lazy match by a newline. -/
def subTags (l : List Char) : List Char :=
  match l with
  | [] => []
  | c :: rest =>
    if c = '<' then
      match h : findTag rest with
      | some restTl => '\n' :: subTags restTl
      | none => '<' :: subTags rest
    else c :: subTags rest
termination_by l.length
decreasing_by
  · exact Nat.lt_succ_of_le (findTag_length_le rest restTl h)
  · exact Nat.lt_succ_self _
  · exact Nat.lt_succ_self _

/-- Embeds the second substitution, `re.sub` of one-or-more blanks by
one blank: collapse every maximal run of space characters (U+0020
only) to a single space. -/
def squeeze (l : List Char) : List Char :=
  match l with
  | [] => []
  | c :: rest =>
    if c = ' ' then ' ' :: squeeze (rest.dropWhile (fun d => d = ' '))
    else c :: squeeze rest
termination_by l.length
decreasing_by
  · exact Nat.lt_succ_of_le (List.dropWhile_sublist _).length_le
  · exact Nat.lt_succ_self _

/-- Python `str.strip()`: remove leading and trailing whitespace. -/
def pyStrip (l : List Char) : List Char :=
  ((l.dropWhile pySpace).reverse.dropWhile pySpace).reverse

/-- Python `str.split()` with no argument: maximal runs of
non-whitespace characters, in order; no empty tokens. -/
def pySplit (l : List Char) : List (List Char) :=
  match l with
  | [] => []
  | c :: rest =>
    if pySpace c then pySplit rest
    else (c :: rest.takeWhile (fun d => !pySpace d)) ::
      pySplit (rest.dropWhile (fun d => !pySpace d))
termination_by l.length
decreasing_by
  · exact Nat.lt_succ_self _
  · exact Nat.lt_succ_of_le (List.dropWhile_sublist _).length_le

/-- Embeds `tokenize_text`: strip html tags (replacing them by
newlines), collapse repeated blanks, strip, and split on whitespace.
The call `to_unicode` is the identity on an already-decoded string. -/
def tokenize_text (text : List Char) : List (List Char) :=
  pySplit (pyStrip (squeeze (subTags text)))

/-- Decimal digit characters, as produced by Python string formatting. -/
def digitChar : Nat → Char
  | 0 => '0' | 1 => '1' | 2 => '2' | 3 => '3' | 4 => '4'
  | 5 => '5' | 6 => '6' | 7 => '7' | 8 => '8' | _ => '9'

/-- Little-endian base-10 digits of a positive number, with enough
fuel (first argument) to finish. -/
def decAux : Nat → Nat → List Nat
  | _, 0 => []
  | 0, _ + 1 => []
  | fuel + 1, n + 1 => ((n + 1) % 10) :: decAux fuel ((n + 1) / 10)

/-- Little-endian decimal digits, with `0` rendered as `[0]` as Python
formats it. -/
def digitsOf (n : Nat) : List Nat :=
  if n = 0 then [0] else decAux n n

/-- The decimal rendering of a natural number, most significant digit
first: the characters an f-string interpolation of `i` produces. -/
def decChars (n : Nat) : List Char :=
  (digitsOf n).reverse.map digitChar

/-- The tag the corpus iterator attaches: the f-string
interpolating the part name, a hyphen, and the index. -/
def tagChars (part : List Char) (i : Nat) : List Char :=
  part ++ '-' :: decChars i

/-- A Python string, as its list of decoded code points. -/
abbrev PyStr := List Char

/-- The characters of a string literal. -/
def chars (s : String) : PyStr := s.data

/-- One record of the tensorflow-datasets IMDB split: the decoded
review text and its integer label, as the notebook reads them off a
dataset line. -/
structure Doc where
  text : PyStr
  label : Nat

/-- The loaded dataset `data`: a split name (train, test,
unsupervised) indexes a list of documents. -/
abbrev Dataset := PyStr → List Doc

/-- Embeds `gensim.models.doc2vec.TaggedDocument`: a token sequence
paired with a list of tags. -/
structure TaggedDocument where
  words : List PyStr
  tags : List PyStr
deriving DecidableEq

/-- Embeds `TxtCorpus(list)`: the `contents` field is the storage of
the `list` superclass; `__init__` only sets `tf_dataset` and `parts`
and never populates the list storage. -/
structure TxtCorpus where
  contents : List TaggedDocument
  tf_dataset : Dataset
  parts : List PyStr

/-- Embeds `TxtCorpus.__init__`: stores the dataset and the part
list; the inherited `list` storage stays empty. -/
def TxtCorpus.init (tf_dataset : Dataset) (parts : List PyStr) : TxtCorpus :=
  ⟨[], tf_dataset, parts⟩

/-- The default value of the `parts` keyword argument. -/
def defaultParts : List PyStr :=
  [chars "train", chars "test", chars "unsupervised"]

/-- The inner loop of `TxtCorpus.__iter__`: enumerate the part's
lines from 0, yielding a `TaggedDocument` of the tokenized text under
the single tag part-dash-index. The progress `print` is I/O only and
has no data effect. -/
def iterDocs (part : PyStr) : Nat → List Doc → List TaggedDocument
  | _, [] => []
  | i, d :: ds =>
    ⟨tokenize_text d.text, [tagChars part i]⟩ :: iterDocs part (i + 1) ds

/-- The outer loop of `TxtCorpus.__iter__`: walk `self.parts` in
order, each part enumerated from index 0. -/
def iterParts (ds : Dataset) : List PyStr → List TaggedDocument
  | [] => []
  | p :: ps => iterDocs p 0 (ds p) ++ iterParts ds ps

/-- A full pass over the iterator returned by `TxtCorpus.__iter__`. -/
def TxtCorpus.iter (c : TxtCorpus) : List TaggedDocument :=
  iterParts c.tf_dataset c.parts

/-- All identifiers attached during one full iteration. -/
def allTags (c : TxtCorpus) : List PyStr :=
  (TxtCorpus.iter c).flatMap TaggedDocument.tags

/-- A trained gensim `Doc2Vec` (or `ConcatenatedDoc2Vec`) object, as
the notebook observes it: its `str()` description, the mapping
`model.docvecs[tag]` (`none` models a `KeyError`), and
`model.infer_vector`. -/
structure D2VModel (V : Type) where
  descr : PyStr
  docvecs : PyStr → Option V
  infer_vector : List PyStr → V

/-- The loop body of `load_from_model`: enumerate the part's
documents, appending the stored vector under tag part-dash-index to
`X` and the label to `Y`; a missing tag raises `KeyError` carrying
that tag. -/
def loadDocs {V : Type} (m : D2VModel V) (part : PyStr) :
    Nat → List Doc → Except PyStr (List V × List Nat)
  | _, [] => .ok ([], [])
  | i, d :: ds =>
    match m.docvecs (tagChars part i) with
    | none => .error (tagChars part i)
    | some v =>
      match loadDocs m part (i + 1) ds with
      | .error e => .error e
      | .ok (X, Y) => .ok (v :: X, d.label :: Y)

/-- Embeds `load_from_model`: embeddings stored during training, plus
labels. -/
def load_from_model {V : Type} (m : D2VModel V) (tf_dataset : Dataset)
    (part : PyStr) : Except PyStr (List V × List Nat) :=
  loadDocs m part 0 (tf_dataset part)

/-- The loop body of `infer_from_model`: appends
`d2v_model.infer_vector(tokenize_text(text))` and the label. -/
def inferDocs {V : Type} (m : D2VModel V) : List Doc → List V × List Nat
  | [] => ([], [])
  | d :: ds =>
    let r := inferDocs m ds
    (m.infer_vector (tokenize_text d.text) :: r.1, d.label :: r.2)

/-- Embeds `infer_from_model`: embeddings inferred after training,
plus labels. -/
def infer_from_model {V : Type} (m : D2VModel V) (tf_dataset : Dataset)
    (part : PyStr) : List V × List Nat :=
  inferDocs m (tf_dataset part)

/-- The hyperparameter grid handed to `GridSearchCV` in
`train_lr_evaluate`: `penalty`, `C`, `solver`, `cv=5`, `n_jobs=4`. -/
structure LRGridConfig where
  penalty : List PyStr
  C : List ℚ
  solver : List PyStr
  cv : Nat
  n_jobs : Nat

/-- The concrete grid of `train_lr_evaluate`. -/
def lrGrid : LRGridConfig :=
  ⟨[chars "l1", chars "l2"], [1/10000, 1/1000, 1/10, 1, 10, 100],
   [chars "liblinear"], 5, 4⟩

/-- The sklearn behaviour `train_lr_evaluate` relies on, abstractly:
`gridFit cfg X Y` is `GridSearchCV(lr, cfg).fit(X, Y).best_estimator_`
and `scoreFn est X Y` is `est.score(X, Y)`. `E` is the estimator type,
`S` the score type. -/
structure SkLearn (V S E : Type) where
  gridFit : LRGridConfig → List V → List Nat → E
  scoreFn : E → List V → List Nat → S

/-- Embeds `train_lr_evaluate`: load the training embeddings
(propagating any `KeyError`), infer the test embeddings, grid-search a
logistic regression on the training pair, and return the best
estimator score on the test pair. -/
def train_lr_evaluate {V S E : Type} (sk : SkLearn V S E)
    (model : D2VModel V) (data : Dataset) : Except PyStr S :=
  match load_from_model model data (chars "train") with
  | .error e => .error e
  | .ok trainPair =>
    let testPair := infer_from_model model data (chars "test")
    let best := sk.gridFit lrGrid trainPair.1 trainPair.2
    .ok (sk.scoreFn best testPair.1 testPair.2)

/-- The keyword arguments a `Doc2Vec` constructor receives in the
models cell; optional fields are the keywords not passed for that
model. `workers` is `multiprocessing.cpu_count()`. -/
structure D2VParams where
  vector_size : Nat
  epochs : Nat
  min_count : Nat
  sample : Nat
  workers : Nat
  negative : Nat
  hs : Nat
  dm : Nat
  dm_concat : Option Nat
  window : Option Nat
  alpha : Option ℚ
  comment : Option PyStr

/-- Arguments of the first model, distributed bag of words: dm is 0
plus the common parameters. -/
def dbowParams (w : Nat) : D2VParams :=
  ⟨100, 20, 2, 0, w, 5, 0, 0, none, none, none, none⟩

/-- Arguments of the second model, distributed memory with averaging:
dm is 1, window 10, alpha 0.05 with matching comment, plus the common
parameters. -/
def dmmParams (w : Nat) : D2VParams :=
  ⟨100, 20, 2, 0, w, 5, 0, 1, none, some 10, some (1/20),
   some (chars "alpha=0.05")⟩

/-- Arguments of the third model, distributed memory with
concatenation: dm is 1, dm_concat 1, window 5, plus the common
parameters. -/
def dmcParams (w : Nat) : D2VParams :=
  ⟨100, 20, 2, 0, w, 5, 0, 1, some 1, some 5, none, none⟩

/-- The `models` list's constructor arguments, in order. -/
def modelsParams (w : Nat) : List D2VParams :=
  [dbowParams w, dmmParams w, dmcParams w]

/-- The textual description of the first model with `workers = w`, as
gensim renders it (format recorded in the notebook's stored
outputs). -/
def dbowStr (w : Nat) : PyStr :=
  chars "Doc2Vec(dbow,d100,n5,mc2,t" ++ decChars w ++ [')']

/-- The textual description of the second model with `workers = w`. -/
def dmmStr (w : Nat) : PyStr :=
  chars "Doc2Vec(\"alpha=0.05\",dm/m,d100,n5,w10,mc2,t" ++ decChars w ++ [')']

/-- The textual description of the third model with `workers = w`. -/
def dmcStr (w : Nat) : PyStr :=
  chars "Doc2Vec(dm/c,d100,n5,w5,mc2,t" ++ decChars w ++ [')']

/-- Embeds the library wrapper `ConcatenatedDoc2Vec` over two models:
document vectors and inferred vectors are the concatenation (`vcat`)
of the two wrapped vectors; its description joins the two wrapped
descriptions with a plus sign. -/
def concatModel {V : Type} (vcat : V → V → V) (m1 m2 : D2VModel V) :
    D2VModel V where
  descr := m1.descr ++ '+' :: m2.descr
  docvecs := fun t =>
    match m1.docvecs t, m2.docvecs t with
    | some a, some b => some (vcat a b)
    | _, _ => none
  infer_vector := fun ws => vcat (m1.infer_vector ws) (m2.infer_vector ws)

/-- Python dict assignment of value `v` at key `k`: an existing key
keeps its position and gets the new value; a new key is appended. -/
def dictSet {S : Type} : List (PyStr × S) → PyStr → S → List (PyStr × S)
  | [], k, v => [(k, v)]
  | (k0, v0) :: rest, k, v =>
    if k0 = k then (k, v) :: rest else (k0, v0) :: dictSet rest k v

/-- Python `s.startswith(p)`. -/
def startswith (s p : PyStr) : Bool :=
  match p, s with
  | [], _ => true
  | _ :: _, [] => false
  | pc :: ps, c :: cs => c == pc && startswith cs ps

/-- Everything the notebook run obtains from the libraries: the loaded
dataset, the worker count `multiprocessing.cpu_count()`, vector
concatenation, the three models' post-training vector maps, and the
sklearn fit/score behaviour. -/
structure RunLib (V S E : Type) where
  data : Dataset
  cpu : Nat
  vcat : V → V → V
  trainedDocvecs : Nat → PyStr → Option V
  trainedInfer : Nat → List PyStr → V
  sk : SkLearn V S E

/-- The textual description of model `k` with `workers = w`. -/
def modelStr (w : Nat) : Nat → PyStr
  | 0 => dbowStr w
  | 1 => dmmStr w
  | _ => dmcStr w

/-- Model `k` as observed after `build_vocab` and `train`. -/
def trainedModel {V S E : Type} (lib : RunLib V S E) (k : Nat) :
    D2VModel V :=
  ⟨modelStr lib.cpu k, lib.trainedDocvecs k, lib.trainedInfer k⟩

/-- Observable pipeline stages of the notebook run. -/
inductive Event
  | loadData : Event
  | buildVocab : Nat → Event
  | concatCreate : PyStr → Event
  | trainModel : Nat → Event
  | evalModel : PyStr → Event
  | printResults : Event
deriving DecidableEq

/-- The first cell-10 loop over `models_by_name.items()`: entries whose
key starts with `"Doc2Vec"` are trained (`model.train`) and then
evaluated, the score stored under `str(model)`; other entries are
skipped. An exception from an evaluation aborts the loop, leaving the
dict as it was. Returns the dict, the propagated error, and the
emitted events. -/
def evalLoop {V S E : Type} (sk : SkLearn V S E) (data : Dataset) :
    List (PyStr × Nat × D2VModel V) → List (PyStr × S) →
    List (PyStr × S) × Option PyStr × List Event
  | [], acc => (acc, none, [])
  | (name, k, m) :: rest, acc =>
    if startswith name (chars "Doc2Vec") then
      match train_lr_evaluate sk m data with
      | .error e => (acc, some e, [Event.trainModel k])
      | .ok s =>
        let r := evalLoop sk data rest (dictSet acc m.descr s)
        (r.1, r.2.1, Event.trainModel k :: Event.evalModel m.descr :: r.2.2)
    else evalLoop sk data rest acc

/-- The second cell-10 loop over the two concatenated models: evaluate
each and store the score under `str(model)`. -/
def evalConcats {V S E : Type} (sk : SkLearn V S E) (data : Dataset) :
    List (D2VModel V) → List (PyStr × S) →
    List (PyStr × S) × Option PyStr × List Event
  | [], acc => (acc, none, [])
  | m :: rest, acc =>
    match train_lr_evaluate sk m data with
    | .error e => (acc, some e, [])
    | .ok s =>
      let r := evalConcats sk data rest (dictSet acc m.descr s)
      (r.1, r.2.1, Event.evalModel m.descr :: r.2.2)

/-- The notebook run, cell by cell: load the dataset (cell 1); build
the three models' vocabularies over the streamed corpus and create the
two `ConcatenatedDoc2Vec` wrappers (cell 9); run the two
train/evaluate loops over `models_by_name` (cell 10); print the
accuracies (cell 11, reached only if no exception propagated).
Returns the final `accuracies` dict with the propagated error, and
the event trace. -/
def runNotebook {V S E : Type} (lib : RunLib V S E) :
    (List (PyStr × S) × Option PyStr) × List Event :=
  let m0 := trainedModel lib 0
  let m1 := trainedModel lib 1
  let m2 := trainedModel lib 2
  let c01 := concatModel lib.vcat m0 m1
  let c02 := concatModel lib.vcat m0 m2
  let ev9 : List Event :=
    [.buildVocab 0, .buildVocab 1, .buildVocab 2,
     .concatCreate (chars "dbow+dmm"), .concatCreate (chars "dbow+dmc")]
  let entries : List (PyStr × Nat × D2VModel V) :=
    [(m0.descr, 0, m0), (m1.descr, 1, m1), (m2.descr, 2, m2),
     (chars "dbow+dmm", 3, c01), (chars "dbow+dmc", 4, c02)]
  let r1 := evalLoop lib.sk lib.data entries []
  match r1.2.1 with
  | some e => ((r1.1, some e), Event.loadData :: ev9 ++ r1.2.2)
  | none =>
    let r2 := evalConcats lib.sk lib.data [c01, c02] r1.1
    match r2.2.1 with
    | some e => ((r2.1, some e), Event.loadData :: ev9 ++ r1.2.2 ++ r2.2.2)
    | none =>
      ((r2.1, none),
       Event.loadData :: ev9 ++ r1.2.2 ++ r2.2.2 ++ [Event.printResults])

/-- The stage an event belongs to in the claimed pipeline order:
load, stream-tokenize, train embeddings, concatenate, classify,
print. -/
def claimRank : Event → Nat
  | .loadData => 0
  | .buildVocab _ => 1
  | .trainModel _ => 2
  | .concatCreate _ => 3
  | .evalModel _ => 4
  | .printResults => 5

/-- Left inverse of `digitChar` on digits. -/
def charDigit (c : Char) : Nat := c.toNat - 48

/-- A concrete library instantiation in which every evaluation
succeeds (the dataset is empty), used to exercise the run model. -/
def unitLib : RunLib Unit Unit Unit :=
  ⟨fun _ => [], 8, fun _ _ => (), fun _ _ => some (), fun _ _ => (),
   ⟨fun _ _ _ => (), fun _ _ _ => ()⟩⟩

/-- A concrete model whose document-vector lookup always succeeds. -/
def okModel : D2VModel Nat :=
  ⟨chars "Doc2Vec(ok)", fun _ => some 7, fun _ => 9⟩

/-- A concrete model with no stored document vectors: every lookup
raises `KeyError`. -/
def failModel : D2VModel Nat :=
  ⟨chars "Doc2Vec(fail)", fun _ => none, fun _ => 0⟩

/-- A concrete dataset with one empty-text document per part. -/
def oneDocData : Dataset := fun _ => [⟨[], 1⟩]

/-- A concrete sklearn behaviour over `Nat` vectors and scores. -/
def natSk : SkLearn Nat Nat Nat := ⟨fun _ _ _ => 0, fun _ _ _ => 3⟩

theorem subTags_of_not_mem : ∀ l : PyStr, '<' ∉ l → subTags l = l := by
  intro l
  induction l using subTags.induct with
  | case1 => intro _; rw [subTags]
  | case2 rest restTl hf ih =>
    intro h; exact absurd (List.mem_cons_self _ _) h
  | case3 rest hf ih =>
    intro h; exact absurd (List.mem_cons_self _ _) h
  | case4 c rest hc ih =>
    intro h
    rw [subTags, if_neg hc, ih (fun hm => h (List.mem_cons_of_mem _ hm))]

theorem squeeze_allspace : ∀ l : PyStr, (∀ c ∈ l, pySpace c = true) →
    ∀ c ∈ squeeze l, pySpace c = true := by
  intro l
  induction l using squeeze.induct with
  | case1 => intro _ c hc; rw [squeeze] at hc; simp at hc
  | case2 rest ih =>
    intro h c hc
    rw [squeeze, if_pos rfl] at hc
    rcases List.mem_cons.mp hc with hc | hc
    · subst hc; decide
    · exact ih (fun d hd => h d (List.mem_cons_of_mem _
        (List.dropWhile_subset _ hd))) c hc
  | case3 c0 rest hc0 ih =>
    intro h c hc
    rw [squeeze, if_neg hc0] at hc
    rcases List.mem_cons.mp hc with hc | hc
    · subst hc; exact h c (List.mem_cons_self _ _)
    · exact ih (fun d hd => h d (List.mem_cons_of_mem _ hd)) c hc

theorem pyStrip_allspace {l : PyStr} (h : ∀ c ∈ l, pySpace c = true) :
    pyStrip l = [] := by
  unfold pyStrip
  rw [List.dropWhile_eq_nil_iff.mpr h]
  simp

theorem pySplit_sound : ∀ l : PyStr,
    ∀ t ∈ pySplit l, t ≠ [] ∧ ∀ c ∈ t, pySpace c = false := by
  intro l
  induction l using pySplit.induct with
  | case1 => intro t ht; rw [pySplit] at ht; simp at ht
  | case2 c rest hc ih =>
    intro t ht
    rw [pySplit, if_pos hc] at ht
    exact ih t ht
  | case3 c rest hc ih =>
    intro t ht
    rw [pySplit, if_neg hc] at ht
    rcases List.mem_cons.mp ht with ht | ht
    · subst ht
      refine ⟨List.cons_ne_nil _ _, ?_⟩
      intro d hd
      rcases List.mem_cons.mp hd with hd | hd
      · subst hd; exact Bool.of_not_eq_true hc
      · have := List.mem_takeWhile_imp hd
        simpa using this
    · exact ih t ht

theorem digitChar_ne_dash (d : Nat) : digitChar d ≠ '-' := by
  unfold digitChar
  split <;> decide

theorem decAux_lt : ∀ fuel n : Nat, ∀ d ∈ decAux fuel n, d < 10 := by
  intro fuel
  induction fuel with
  | zero =>
    intro n d hd
    cases n <;> simp [decAux] at hd
  | succ f ih =>
    intro n d hd
    cases n with
    | zero => simp [decAux] at hd
    | succ m =>
      rw [decAux] at hd
      rcases List.mem_cons.mp hd with hd | hd
      · subst hd; exact Nat.mod_lt _ (by norm_num)
      · exact ih _ d hd

theorem digitsOf_lt (n : Nat) : ∀ d ∈ digitsOf n, d < 10 := by
  intro d hd
  unfold digitsOf at hd
  split at hd
  · simp at hd; omega
  · exact decAux_lt n n d hd

theorem decAux_ofDigits : ∀ fuel n : Nat, n ≤ fuel →
    Nat.ofDigits 10 (decAux fuel n) = n := by
  intro fuel
  induction fuel with
  | zero =>
    intro n hn
    interval_cases n
    rfl
  | succ f ih =>
    intro n hn
    cases n with
    | zero => rfl
    | succ m =>
      rw [decAux, Nat.ofDigits_cons]
      have hdiv : (m + 1) / 10 ≤ f := by
        have := Nat.div_lt_self (Nat.succ_pos m) (by norm_num : 1 < 10)
        omega
      rw [ih _ hdiv]
      omega

theorem ofDigits_digitsOf (n : Nat) : Nat.ofDigits 10 (digitsOf n) = n := by
  unfold digitsOf
  split
  · simp_all [Nat.ofDigits]
  · exact decAux_ofDigits n n le_rfl

theorem charDigit_digitChar {d : Nat} (hd : d < 10) :
    charDigit (digitChar d) = d := by
  interval_cases d <;> decide

theorem map_charDigit_decChars (n : Nat) :
    (decChars n).map charDigit = (digitsOf n).reverse := by
  unfold decChars
  rw [List.map_map]
  have he : (digitsOf n).reverse.map (charDigit ∘ digitChar) =
      (digitsOf n).reverse.map id :=
    List.map_congr_left fun d hd =>
      charDigit_digitChar (digitsOf_lt n d (List.mem_reverse.mp hd))
  rw [he, List.map_id]

theorem decChars_injective {n m : Nat} (h : decChars n = decChars m) :
    n = m := by
  have h2 := congrArg (List.map charDigit) h
  rw [map_charDigit_decChars, map_charDigit_decChars] at h2
  have h3 := List.reverse_injective h2
  have h4 := congrArg (Nat.ofDigits 10) h3
  rwa [ofDigits_digitsOf, ofDigits_digitsOf] at h4

theorem dash_notin_decChars (n : Nat) : '-' ∉ decChars n := by
  intro hm
  unfold decChars at hm
  rcases List.mem_map.mp hm with ⟨d, _, he⟩
  exact digitChar_ne_dash d he

theorem dash_split : ∀ a₁ b₁ a₂ b₂ : PyStr, '-' ∉ a₁ → '-' ∉ a₂ →
    a₁ ++ '-' :: b₁ = a₂ ++ '-' :: b₂ → a₁ = a₂ ∧ b₁ = b₂ := by
  intro a₁
  induction a₁ with
  | nil =>
    intro b₁ a₂ b₂ _ h2 he
    cases a₂ with
    | nil => exact ⟨rfl, by simpa using he⟩
    | cons c u =>
      rw [List.nil_append, List.cons_append, List.cons_eq_cons] at he
      exact absurd (by rw [← he.1] at h2; exact h2) (by
        intro hn; exact hn (List.mem_cons_self _ _))
  | cons c u ih =>
    intro b₁ a₂ b₂ h1 h2 he
    cases a₂ with
    | nil =>
      rw [List.nil_append, List.cons_append, List.cons_eq_cons] at he
      exact absurd (by rw [he.1] at h1; exact h1) (by
        intro hn; exact hn (List.mem_cons_self _ _))
    | cons c2 u2 =>
      rw [List.cons_append, List.cons_append, List.cons_eq_cons] at he
      obtain ⟨hc, ht⟩ := he
      obtain ⟨ha, hb⟩ := ih b₁ u2 b₂
        (fun hm => h1 (List.mem_cons_of_mem _ hm))
        (fun hm => h2 (List.mem_cons_of_mem _ hm)) ht
      exact ⟨by rw [hc, ha], hb⟩

theorem tagChars_inj {p₁ p₂ : PyStr} {i₁ i₂ : Nat}
    (h1 : '-' ∉ p₁) (h2 : '-' ∉ p₂)
    (he : tagChars p₁ i₁ = tagChars p₂ i₂) : p₁ = p₂ ∧ i₁ = i₂ := by
  obtain ⟨hp, hd⟩ := dash_split p₁ _ p₂ _ h1 h2 he
  exact ⟨hp, decChars_injective hd⟩

theorem defaultParts_no_dash : ∀ p ∈ defaultParts, '-' ∉ p := by decide

theorem iterDocs_eq (p : PyStr) : ∀ (docs : List Doc) (i : Nat),
    iterDocs p i docs = (docs.enumFrom i).map
      (fun pr => ⟨tokenize_text pr.2.text, [tagChars p pr.1]⟩) := by
  intro docs
  induction docs with
  | nil => intro i; rfl
  | cons d ds ih => intro i; simp [iterDocs, ih]

theorem iterParts_eq (ds : Dataset) : ∀ ps : List PyStr,
    iterParts ds ps = ps.flatMap (fun p => ((ds p).enum).map
      (fun pr => ⟨tokenize_text pr.2.text, [tagChars p pr.1]⟩)) := by
  intro ps
  induction ps with
  | nil => rfl
  | cons p rest ih =>
    rw [iterParts, List.flatMap_cons, ih, iterDocs_eq]
    rfl

theorem iter_eq (c : TxtCorpus) :
    TxtCorpus.iter c = c.parts.flatMap (fun p => ((c.tf_dataset p).enum).map
      (fun pr => ⟨tokenize_text pr.2.text, [tagChars p pr.1]⟩)) :=
  iterParts_eq c.tf_dataset c.parts

theorem iterDocs_length (p : PyStr) : ∀ (docs : List Doc) (i : Nat),
    (iterDocs p i docs).length = docs.length := by
  intro docs
  induction docs with
  | nil => intro i; rfl
  | cons d ds ih => intro i; simp [iterDocs, ih]

theorem iter_length (c : TxtCorpus) :
    (TxtCorpus.iter c).length =
      (c.parts.map fun p => (c.tf_dataset p).length).sum := by
  unfold TxtCorpus.iter
  induction c.parts with
  | nil => rfl
  | cons p rest ih =>
    rw [iterParts, List.length_append, iterDocs_length, ih, List.map_cons,
      List.sum_cons]

theorem iterDocs_tags (p : PyStr) : ∀ (docs : List Doc) (i : Nat),
    (iterDocs p i docs).flatMap TaggedDocument.tags =
      (List.range' i docs.length).map (tagChars p) := by
  intro docs
  induction docs with
  | nil => intro i; rfl
  | cons d ds ih =>
    intro i
    rw [iterDocs, List.flatMap_cons, ih, List.length_cons, List.range'_succ]
    rfl

theorem allTags_eq (c : TxtCorpus) :
    allTags c = c.parts.flatMap
      (fun p => (List.range' 0 (c.tf_dataset p).length).map (tagChars p)) := by
  unfold allTags TxtCorpus.iter
  induction c.parts with
  | nil => rfl
  | cons p rest ih =>
    rw [iterParts, List.flatMap_append, iterDocs_tags, ih, List.flatMap_cons]

/-- C1. One full iteration of a `TxtCorpus` yields, part by part in
the listed order and document by document in enumeration order from 0,
exactly one `TaggedDocument` whose words are `tokenize_text` of the
document's decoded text and whose tag list is the single string
part-dash-index; in particular there is exactly one record per
underlying document. -/
theorem claim1_iter_stream (c : TxtCorpus) :
    TxtCorpus.iter c = c.parts.flatMap (fun p => ((c.tf_dataset p).enum).map
      (fun pr => ⟨tokenize_text pr.2.text, [tagChars p pr.1]⟩)) ∧
    (TxtCorpus.iter c).length =
      (c.parts.map fun p => (c.tf_dataset p).length).sum :=
  ⟨iter_eq c, iter_length c⟩

/-- C2. Tags are unique identifiers: over the fixed part names the tag
part-dash-index determines the `(part, index)` pair, and a full
iteration of a `TxtCorpus` whose parts are distinct names drawn from
the fixed part names attaches pairwise distinct identifiers. -/
theorem claim2_tags_unique (c : TxtCorpus)
    (hp : ∀ p ∈ c.parts, p ∈ defaultParts) (hnd : c.parts.Nodup) :
    (∀ p₁ p₂ i₁ i₂, p₁ ∈ defaultParts → p₂ ∈ defaultParts →
      tagChars p₁ i₁ = tagChars p₂ i₂ → p₁ = p₂ ∧ i₁ = i₂) ∧
    (allTags c).Nodup := by
  constructor
  · intro p₁ p₂ i₁ i₂ m₁ m₂ he
    exact tagChars_inj (defaultParts_no_dash _ m₁) (defaultParts_no_dash _ m₂) he
  · rw [allTags_eq, List.nodup_flatMap]
    constructor
    · intro p hpm
      refine List.Nodup.map ?_ (List.nodup_range' _ _)
      intro i j hij
      exact (tagChars_inj (defaultParts_no_dash _ (hp p hpm))
        (defaultParts_no_dash _ (hp p hpm)) hij).2
    · refine hnd.imp_of_mem ?_
      intro a b ha hb hne x hxa hxb
      rcases List.mem_map.mp hxa with ⟨i, _, hi⟩
      rcases List.mem_map.mp hxb with ⟨j, _, hj⟩
      exact hne (tagChars_inj (defaultParts_no_dash _ (hp a ha))
        (defaultParts_no_dash _ (hp b hb)) (hi.trans hj.symm)).1

/-- Concrete instance discharging the hypotheses of
`claim2_tags_unique`: the corpus over the default part list. -/
theorem claim2_tags_unique_witness :
    (allTags (TxtCorpus.init oneDocData defaultParts)).Nodup :=
  (claim2_tags_unique (TxtCorpus.init oneDocData defaultParts)
    (by decide) (by decide)).2

/-- C7. Every token `tokenize_text` returns is a non-empty string with
no whitespace character in it, and an empty or all-whitespace input
produces the empty token list. -/
theorem claim7_tokenize_clean (l : PyStr) :
    (∀ t ∈ tokenize_text l, t ≠ [] ∧ ∀ c ∈ t, pySpace c = false) ∧
    ((∀ c ∈ l, pySpace c = true) → tokenize_text l = []) := by
  constructor
  · intro t ht
    exact pySplit_sound _ t ht
  · intro h
    unfold tokenize_text
    have h1 : '<' ∉ l := fun hm => absurd (h '<' hm) (by decide)
    rw [subTags_of_not_mem l h1, pyStrip_allspace (squeeze_allspace l h)]
    rw [pySplit]

/-- Concrete instance discharging the hypothesis of
`claim7_tokenize_clean`: a whitespace-only input tokenizes to the
empty list. -/
theorem claim7_tokenize_clean_witness :
    (∀ c ∈ chars "  \t\n ", pySpace c = true) ∧
      tokenize_text (chars "  \t\n ") = [] :=
  ⟨by decide, (claim7_tokenize_clean (chars "  \t\n ")).2 (by decide)⟩

/-- C8. `TxtCorpus` subclasses `list` but never populates its list
storage: after construction its length as a list is 0 and it is falsy,
while iterating it still yields one record per underlying document. -/
theorem claim8_list_empty (ds : Dataset) (parts : List PyStr) :
    (TxtCorpus.init ds parts).contents = [] ∧
    (TxtCorpus.init ds parts).contents.length = 0 ∧
    (TxtCorpus.init ds parts).contents.isEmpty = true ∧
    ((TxtCorpus.init ds parts).iter).length =
      (parts.map fun p => (ds p).length).sum :=
  ⟨rfl, rfl, rfl, iter_length (TxtCorpus.init ds parts)⟩

/-- C9. Iteration is restartable and deterministic: a full pass
depends only on the stored dataset and part list, so any two complete
iterations of the same corpus (its list storage aside) yield the same
sequence of records. -/
theorem claim9_iter_deterministic (c₁ c₂ : TxtCorpus)
    (hds : c₁.tf_dataset = c₂.tf_dataset) (hp : c₁.parts = c₂.parts) :
    TxtCorpus.iter c₁ = TxtCorpus.iter c₂ := by
  unfold TxtCorpus.iter
  rw [hds, hp]

/-- Concrete instance discharging the hypotheses of
`claim9_iter_deterministic`: two corpora over the same dataset and
parts, with different list storage, iterate identically. -/
theorem claim9_iter_deterministic_witness :
    TxtCorpus.iter ⟨[⟨[], []⟩], oneDocData, [chars "train"]⟩ =
      TxtCorpus.iter ⟨[], oneDocData, [chars "train"]⟩ :=
  claim9_iter_deterministic _ _ rfl rfl

theorem loadDocs_ok {V : Type} (m : D2VModel V) (part : PyStr) :
    ∀ (docs : List Doc) (i : Nat) (X : List V) (Y : List Nat),
      loadDocs m part i docs = .ok (X, Y) →
      X.length = docs.length ∧ Y = docs.map Doc.label ∧
      ∀ j (hj : j < X.length),
        m.docvecs (tagChars part (i + j)) = some (X.get ⟨j, hj⟩) := by
  intro docs
  induction docs with
  | nil =>
    intro i X Y h
    simp [loadDocs] at h
    obtain ⟨hX, hY⟩ := h
    subst hX; subst hY
    exact ⟨rfl, rfl, fun j hj => absurd hj (by simp)⟩
  | cons d ds ih =>
    intro i X Y h
    cases hm : m.docvecs (tagChars part i) with
    | none => simp [loadDocs, hm] at h
    | some v =>
      cases hr : loadDocs m part (i + 1) ds with
      | error e => simp [loadDocs, hm, hr] at h
      | ok XY =>
        obtain ⟨Xr, Yr⟩ := XY
        simp [loadDocs, hm, hr] at h
        obtain ⟨hX, hY⟩ := h
        subst hX; subst hY
        obtain ⟨h1, h2, h3⟩ := ih (i + 1) Xr Yr hr
        refine ⟨by simp [h1], by simp [h2], ?_⟩
        intro j hj
        cases j with
        | zero => simpa using hm
        | succ j2 =>
          have hx := h3 j2 (by simpa using hj)
          rw [show i + (j2 + 1) = i + 1 + j2 by omega]
          simpa using hx

theorem inferDocs_eq {V : Type} (m : D2VModel V) : ∀ docs : List Doc,
    inferDocs m docs =
      (docs.map fun d => m.infer_vector (tokenize_text d.text),
       docs.map Doc.label) := by
  intro docs
  induction docs with
  | nil => rfl
  | cons d ds ih => simp [inferDocs, ih]

/-- C3. The glue functions produce per-document array pairs: on
success `load_from_model` returns lists of equal length, one entry per
document in enumeration order, pairing the stored vector for the tag
part-dash-index with the document's label; `infer_from_model` pairs
the vector inferred from the tokenized decoded text with the label. -/
theorem claim3_glue_arrays {V : Type} (m : D2VModel V) (data : Dataset)
    (part : PyStr) (X : List V) (Y : List Nat)
    (h : load_from_model m data part = .ok (X, Y)) :
    (X.length = (data part).length ∧ Y.length = (data part).length ∧
      Y = (data part).map Doc.label ∧
      ∀ j (hj : j < X.length),
        m.docvecs (tagChars part j) = some (X.get ⟨j, hj⟩)) ∧
    infer_from_model m data part =
      ((data part).map (fun d => m.infer_vector (tokenize_text d.text)),
       (data part).map Doc.label) := by
  constructor
  · obtain ⟨h1, h2, h3⟩ := loadDocs_ok m part (data part) 0 X Y h
    refine ⟨h1, by simp [h2], h2, ?_⟩
    intro j hj
    simpa using h3 j hj
  · exact inferDocs_eq m (data part)

/-- Concrete instance discharging the hypothesis of
`claim3_glue_arrays`: a one-document part loads and infers to
singleton array pairs. -/
theorem claim3_glue_arrays_witness :
    load_from_model okModel oneDocData (chars "train") = .ok ([7], [1]) ∧
    infer_from_model okModel oneDocData (chars "train") = ([9], [1]) :=
  ⟨rfl, (claim3_glue_arrays okModel oneDocData (chars "train") [7] [1] rfl).2⟩

/-- C6. No notebook function handles errors: a `KeyError` raised while
loading the training embeddings propagates unchanged through
`train_lr_evaluate`, and an evaluation failure inside the accuracies
loop aborts it leaving the accuracy table exactly as it was, with no
partial entry. -/
theorem claim6_error_propagation {V S E : Type} (sk : SkLearn V S E)
    (m : D2VModel V) (data : Dataset) (e : PyStr)
    (h : load_from_model m data (chars "train") = .error e) :
    train_lr_evaluate sk m data = .error e ∧
    ∀ (name : PyStr) (k : Nat) (rest : List (PyStr × Nat × D2VModel V))
      (acc : List (PyStr × S)),
      startswith name (chars "Doc2Vec") = true →
      evalLoop sk data ((name, k, m) :: rest) acc =
        (acc, some e, [Event.trainModel k]) := by
  have h1 : train_lr_evaluate sk m data = .error e := by
    unfold train_lr_evaluate
    rw [h]
  refine ⟨h1, ?_⟩
  intro name k rest acc hsw
  simp [evalLoop, hsw, h1]

/-- Concrete instance discharging the hypotheses of
`claim6_error_propagation`: a model holding no document vectors fails
on the first training document's tag, and the loop leaves the table
empty. -/
theorem claim6_error_propagation_witness :
    train_lr_evaluate natSk failModel oneDocData =
      .error (tagChars (chars "train") 0) ∧
    evalLoop natSk oneDocData [(chars "Doc2Vec(fail)", 0, failModel)] [] =
      ([], some (tagChars (chars "train") 0), [Event.trainModel 0]) := by
  have hc := claim6_error_propagation natSk failModel oneDocData
    (tagChars (chars "train") 0) rfl
  exact ⟨hc.1, hc.2 (chars "Doc2Vec(fail)") 0 [] [] (by decide)⟩

theorem startswith_append : ∀ (p s t : PyStr),
    startswith s p = true → startswith (s ++ t) p = true := by
  intro p
  induction p with
  | nil => intro s t _; simp [startswith]
  | cons pc ps ih =>
    intro s t hs
    cases s with
    | nil => simp [startswith] at hs
    | cons c cs =>
      rw [List.cons_append]
      rw [startswith] at hs ⊢
      simp only [Bool.and_eq_true, beq_iff_eq] at hs ⊢
      exact ⟨hs.1, ih cs t hs.2⟩

theorem sw_dbow (w : Nat) : startswith (dbowStr w) (chars "Doc2Vec") = true := by
  unfold dbowStr
  rw [List.append_assoc]
  exact startswith_append _ _ _ (by decide)

theorem sw_dmm (w : Nat) : startswith (dmmStr w) (chars "Doc2Vec") = true := by
  unfold dmmStr
  rw [List.append_assoc]
  exact startswith_append _ _ _ (by decide)

theorem sw_dmc (w : Nat) : startswith (dmcStr w) (chars "Doc2Vec") = true := by
  unfold dmcStr
  rw [List.append_assoc]
  exact startswith_append _ _ _ (by decide)

theorem sw_catKey1 : startswith (chars "dbow+dmm") (chars "Doc2Vec") = false := by
  decide

theorem sw_catKey2 : startswith (chars "dbow+dmc") (chars "Doc2Vec") = false := by
  decide

theorem len_dbowStr (w : Nat) :
    (dbowStr w).length = 27 + (decChars w).length := by
  have hA : (chars "Doc2Vec(dbow,d100,n5,mc2,t").length = 26 := by decide
  simp [dbowStr, hA]
  omega

theorem len_dmmStr (w : Nat) :
    (dmmStr w).length = 44 + (decChars w).length := by
  have hA : (chars "Doc2Vec(\"alpha=0.05\",dm/m,d100,n5,w10,mc2,t").length = 43 := by
    decide
  simp [dmmStr, hA]
  omega

theorem len_dmcStr (w : Nat) :
    (dmcStr w).length = 30 + (decChars w).length := by
  have hA : (chars "Doc2Vec(dm/c,d100,n5,w5,mc2,t").length = 29 := by decide
  simp [dmcStr, hA]
  omega

theorem key_len_ne {a b : PyStr} (h : a.length ≠ b.length) : a ≠ b :=
  fun he => h (congrArg List.length he)

theorem ne_dbow_dmm (w : Nat) : dbowStr w ≠ dmmStr w :=
  key_len_ne (by rw [len_dbowStr, len_dmmStr]; omega)

theorem ne_dbow_dmc (w : Nat) : dbowStr w ≠ dmcStr w :=
  key_len_ne (by rw [len_dbowStr, len_dmcStr]; omega)

theorem ne_dmm_dmc (w : Nat) : dmmStr w ≠ dmcStr w :=
  key_len_ne (by rw [len_dmmStr, len_dmcStr]; omega)

theorem len_cat1 (w : Nat) :
    (dbowStr w ++ '+' :: dmmStr w).length = 72 + 2 * (decChars w).length := by
  simp [List.length_append, len_dbowStr, len_dmmStr]
  omega

theorem len_cat2 (w : Nat) :
    (dbowStr w ++ '+' :: dmcStr w).length = 58 + 2 * (decChars w).length := by
  simp [List.length_append, len_dbowStr, len_dmcStr]
  omega

theorem ne_dbow_cat1 (w : Nat) : dbowStr w ≠ dbowStr w ++ '+' :: dmmStr w :=
  key_len_ne (by rw [len_dbowStr, len_cat1]; omega)

theorem ne_dbow_cat2 (w : Nat) : dbowStr w ≠ dbowStr w ++ '+' :: dmcStr w :=
  key_len_ne (by rw [len_dbowStr, len_cat2]; omega)

theorem ne_dmm_cat1 (w : Nat) : dmmStr w ≠ dbowStr w ++ '+' :: dmmStr w :=
  key_len_ne (by rw [len_dmmStr, len_cat1]; omega)

theorem ne_dmm_cat2 (w : Nat) : dmmStr w ≠ dbowStr w ++ '+' :: dmcStr w :=
  key_len_ne (by rw [len_dmmStr, len_cat2]; omega)

theorem ne_dmc_cat1 (w : Nat) : dmcStr w ≠ dbowStr w ++ '+' :: dmmStr w :=
  key_len_ne (by rw [len_dmcStr, len_cat1]; omega)

theorem ne_dmc_cat2 (w : Nat) : dmcStr w ≠ dbowStr w ++ '+' :: dmcStr w :=
  key_len_ne (by rw [len_dmcStr, len_cat2]; omega)

theorem ne_cat1_cat2 (w : Nat) :
    dbowStr w ++ '+' :: dmmStr w ≠ dbowStr w ++ '+' :: dmcStr w :=
  key_len_ne (by rw [len_cat1, len_cat2]; omega)

theorem keys_nodup (w : Nat) :
    ([dbowStr w, dmmStr w, dmcStr w,
      dbowStr w ++ '+' :: dmmStr w, dbowStr w ++ '+' :: dmcStr w]).Nodup := by
  simp only [List.nodup_cons, List.mem_cons, List.mem_singleton,
    List.not_mem_nil, or_false, List.nodup_nil, and_true]
  refine ⟨?_, ?_, ?_, ?_⟩
  · push_neg
    exact ⟨ne_dbow_dmm w, ne_dbow_dmc w, ne_dbow_cat1 w, ne_dbow_cat2 w⟩
  · push_neg
    exact ⟨ne_dmm_dmc w, ne_dmm_cat1 w, ne_dmm_cat2 w⟩
  · push_neg
    exact ⟨ne_dmc_cat1 w, ne_dmc_cat2 w⟩
  · push_neg
    exact ⟨ne_cat1_cat2 w, not_false⟩

theorem runNotebook_spec {V S E : Type} (lib : RunLib V S E) (s0 s1 s2 s3 s4 : S)
    (h0 : train_lr_evaluate lib.sk (trainedModel lib 0) lib.data = .ok s0)
    (h1 : train_lr_evaluate lib.sk (trainedModel lib 1) lib.data = .ok s1)
    (h2 : train_lr_evaluate lib.sk (trainedModel lib 2) lib.data = .ok s2)
    (h3 : train_lr_evaluate lib.sk
      (concatModel lib.vcat (trainedModel lib 0) (trainedModel lib 1))
      lib.data = .ok s3)
    (h4 : train_lr_evaluate lib.sk
      (concatModel lib.vcat (trainedModel lib 0) (trainedModel lib 2))
      lib.data = .ok s4) :
    runNotebook lib =
      (([(dbowStr lib.cpu, s0), (dmmStr lib.cpu, s1), (dmcStr lib.cpu, s2),
         (dbowStr lib.cpu ++ '+' :: dmmStr lib.cpu, s3),
         (dbowStr lib.cpu ++ '+' :: dmcStr lib.cpu, s4)], none),
       [Event.loadData, .buildVocab 0, .buildVocab 1, .buildVocab 2,
        .concatCreate (chars "dbow+dmm"), .concatCreate (chars "dbow+dmc"),
        .trainModel 0, .evalModel (dbowStr lib.cpu),
        .trainModel 1, .evalModel (dmmStr lib.cpu),
        .trainModel 2, .evalModel (dmcStr lib.cpu),
        .evalModel (dbowStr lib.cpu ++ '+' :: dmmStr lib.cpu),
        .evalModel (dbowStr lib.cpu ++ '+' :: dmcStr lib.cpu),
        Event.printResults]) := by
  simp only [trainedModel, modelStr, concatModel] at h0 h1 h2 h3 h4
  simp only [runNotebook, trainedModel, modelStr, concatModel,
    evalLoop, evalConcats, dictSet,
    sw_dbow, sw_dmm, sw_dmc, sw_catKey1, sw_catKey2,
    h0, h1, h2, h3, h4,
    ne_dbow_dmm, ne_dbow_dmc, ne_dmm_dmc,
    ne_dbow_cat1, ne_dbow_cat2, ne_dmm_cat1, ne_dmm_cat2,
    ne_dmc_cat1, ne_dmc_cat2, ne_cat1_cat2,
    if_true, if_false]
  simp

/-- C4. After a fully successful run the accuracies dict maps each
embedding variant's `str(model)` to the score `train_lr_evaluate`
returned for it — the grid-searched best logistic regression's
accuracy on the inferred test embeddings — with exactly five entries:
the three `Doc2Vec` models and the two concatenated pairs, under
pairwise distinct keys. -/
theorem claim4_accuracy_table {V S E : Type} (lib : RunLib V S E)
    (s0 s1 s2 s3 s4 : S)
    (h0 : train_lr_evaluate lib.sk (trainedModel lib 0) lib.data = .ok s0)
    (h1 : train_lr_evaluate lib.sk (trainedModel lib 1) lib.data = .ok s1)
    (h2 : train_lr_evaluate lib.sk (trainedModel lib 2) lib.data = .ok s2)
    (h3 : train_lr_evaluate lib.sk
      (concatModel lib.vcat (trainedModel lib 0) (trainedModel lib 1))
      lib.data = .ok s3)
    (h4 : train_lr_evaluate lib.sk
      (concatModel lib.vcat (trainedModel lib 0) (trainedModel lib 2))
      lib.data = .ok s4) :
    (runNotebook lib).1 =
      ([(dbowStr lib.cpu, s0), (dmmStr lib.cpu, s1), (dmcStr lib.cpu, s2),
        (dbowStr lib.cpu ++ '+' :: dmmStr lib.cpu, s3),
        (dbowStr lib.cpu ++ '+' :: dmcStr lib.cpu, s4)], none) ∧
    ((runNotebook lib).1.1.map Prod.fst).Nodup ∧
    (runNotebook lib).1.1.length = 5 := by
  have hr := runNotebook_spec lib s0 s1 s2 s3 s4 h0 h1 h2 h3 h4
  have hfst : (runNotebook lib).1 =
      ([(dbowStr lib.cpu, s0), (dmmStr lib.cpu, s1), (dmcStr lib.cpu, s2),
        (dbowStr lib.cpu ++ '+' :: dmmStr lib.cpu, s3),
        (dbowStr lib.cpu ++ '+' :: dmcStr lib.cpu, s4)], none) := by
    rw [hr]
  refine ⟨hfst, ?_, ?_⟩
  · rw [hfst]
    simpa using keys_nodup lib.cpu
  · rw [hfst]
    rfl

/-- Concrete instance discharging the hypotheses of
`claim4_accuracy_table`: the run over `unitLib` produces the
five-entry table. -/
theorem claim4_accuracy_table_witness :
    (runNotebook unitLib).1 =
      ([(dbowStr 8, ()), (dmmStr 8, ()), (dmcStr 8, ()),
        (dbowStr 8 ++ '+' :: dmmStr 8, ()),
        (dbowStr 8 ++ '+' :: dmcStr 8, ())], none) :=
  (claim4_accuracy_table unitLib () () () () () rfl rfl rfl rfl rfl).1

/-- C5 counterexample. The run's event trace is not ordered by the
claimed stage order load, stream-tokenize, train embeddings,
concatenate, classify, print: the concatenated wrappers are created
before any embedding training, and each model's classifier is
evaluated before the next model is trained. -/
theorem claim5_pipeline_cex :
    ¬ List.Pairwise (fun a b => claimRank a ≤ claimRank b)
        (runNotebook unitLib).2 := by
  decide

/-- C5 (amended). The run is linear but per-model interleaved: load
the dataset; build each model's vocabulary over the streamed,
tokenized corpus; create the two concatenation wrappers; then for each
of the three models in order, train it and immediately train/evaluate
its classifier; then evaluate the two concatenated variants; print
last. -/
theorem claim5_pipeline_order {V S E : Type} (lib : RunLib V S E)
    (s0 s1 s2 s3 s4 : S)
    (h0 : train_lr_evaluate lib.sk (trainedModel lib 0) lib.data = .ok s0)
    (h1 : train_lr_evaluate lib.sk (trainedModel lib 1) lib.data = .ok s1)
    (h2 : train_lr_evaluate lib.sk (trainedModel lib 2) lib.data = .ok s2)
    (h3 : train_lr_evaluate lib.sk
      (concatModel lib.vcat (trainedModel lib 0) (trainedModel lib 1))
      lib.data = .ok s3)
    (h4 : train_lr_evaluate lib.sk
      (concatModel lib.vcat (trainedModel lib 0) (trainedModel lib 2))
      lib.data = .ok s4) :
    (runNotebook lib).2 =
      [Event.loadData, .buildVocab 0, .buildVocab 1, .buildVocab 2,
       .concatCreate (chars "dbow+dmm"), .concatCreate (chars "dbow+dmc"),
       .trainModel 0, .evalModel (dbowStr lib.cpu),
       .trainModel 1, .evalModel (dmmStr lib.cpu),
       .trainModel 2, .evalModel (dmcStr lib.cpu),
       .evalModel (dbowStr lib.cpu ++ '+' :: dmmStr lib.cpu),
       .evalModel (dbowStr lib.cpu ++ '+' :: dmcStr lib.cpu),
       Event.printResults] := by
  rw [runNotebook_spec lib s0 s1 s2 s3 s4 h0 h1 h2 h3 h4]

/-- Concrete instance discharging the hypotheses of
`claim5_pipeline_order`. -/
theorem claim5_pipeline_order_witness :
    (runNotebook unitLib).2 =
      [Event.loadData, .buildVocab 0, .buildVocab 1, .buildVocab 2,
       .concatCreate (chars "dbow+dmm"), .concatCreate (chars "dbow+dmc"),
       .trainModel 0, .evalModel (dbowStr 8),
       .trainModel 1, .evalModel (dmmStr 8),
       .trainModel 2, .evalModel (dmcStr 8),
       .evalModel (dbowStr 8 ++ '+' :: dmmStr 8),
       .evalModel (dbowStr 8 ++ '+' :: dmcStr 8),
       Event.printResults] :=
  claim5_pipeline_order unitLib () () () () () rfl rfl rfl rfl rfl

/-- C10. The only concurrency-related data the notebook passes are
worker counts: every `Doc2Vec` constructor receives
`workers = cpu_count` and the grid search receives `n_jobs = 4`
(with `cv = 5`); the run model itself is a pure sequential function
with no coordination of its own. -/
theorem claim10_worker_params (w : Nat) :
    (modelsParams w).map D2VParams.workers = [w, w, w] ∧
    lrGrid.n_jobs = 4 ∧ lrGrid.cv = 5 :=
  ⟨rfl, rfl, rfl⟩

end IMDB
